import Mathlib

/-!
Verification of the osu! Discord bot repository against its specification.

Shallow embedding conventions:
* Python floats on the scoring path carry only literals and field
  operations that the spec states as exact numbers, so they are modelled
  as rationals (`ℚ`); `math.sqrt` forces the reals (`ℝ`) in `compute_TS`.
* Wall-clock instants and sleep durations are rationals (seconds).
* Fallible calls return `Option`/`Except`; an HTTP request that fails with
  `httpx.HTTPError` is an attempt that yields `none`.
* Network responses are supplied by oracle functions, so theorems quantify
  over every possible sequence of server answers.
-/

namespace Compute

/-- Input record of `compute_push_value` (src/compute.py, `PushInputs`). -/
structure PushInputs where
  pp : ℚ
  SR : ℚ
  TS : ℚ
  accuracy_percent : ℚ
  map_length_seconds : ℚ
  top50_pp_threshold : ℚ

/-- Embedding of `compute_push_value` (src/compute.py lines 18-41).
The Python chained comparison `92.0 <= acc <= 95.0` is the conjunction of
both comparisons; the guards are tested in source order, first match wins. -/
def compute_push_value (i : PushInputs) : ℚ :=
  if i.pp > i.top50_pp_threshold ∧ i.SR < i.TS then
    max (-10000) (-10000 * (i.TS - i.SR))
  else if i.pp > i.top50_pp_threshold ∧ i.SR ≥ i.TS then 0
  else if i.pp ≤ i.top50_pp_threshold ∧ i.accuracy_percent > 95 then 0
  else if i.pp ≤ i.top50_pp_threshold ∧
      92 ≤ i.accuracy_percent ∧ i.accuracy_percent ≤ 95 then
    ((95 - i.accuracy_percent) / 3) * i.map_length_seconds
  else if i.pp ≤ i.top50_pp_threshold ∧
      85 ≤ i.accuracy_percent ∧ i.accuracy_percent < 92 then
    i.map_length_seconds
  else if i.pp ≤ i.top50_pp_threshold ∧
      75 ≤ i.accuracy_percent ∧ i.accuracy_percent < 85 then
    (8 / 100 * i.accuracy_percent - 58 / 10) * i.map_length_seconds
  else if i.pp ≤ i.top50_pp_threshold ∧ i.accuracy_percent < 75 then
    2 / 10 * i.map_length_seconds
  else 0

/-- Embedding of `compute_TS` (src/compute.py lines 14-16).  The miss sum is
a nonnegative integer (`int` holding a sum of miss counts), modelled as `ℕ`;
`math.sqrt` is the real square root. -/
noncomputable def compute_TS (top10_avg_star_raw : ℝ) (top10_miss_sum : ℕ) : ℝ :=
  top10_avg_star_raw - Real.sqrt top10_miss_sum / 10

end Compute

namespace OsuApi

/-- Pagination loop of `OsuApi.get_user_best` (src/osu_api.py lines 110-130).
`fetch cursor per_page` is the oracle for `self._get(..., params)`:
`none` models an exhausted-retry request failure (the `_get` helper converts
those to `None`).  Python's `if not data: break` treats `None` and the empty
list alike, hence the separate `some []` case.  The cursor starts out unset
(`none`); on a full page the code sets `cursor = (cursor or 1) + 1`.
Scores are opaque (`α`): the loop never inspects or rewrites a payload. -/
def get_user_best_go (fetch : Option ℕ → ℕ → Option (List α)) :
    ℕ → Option ℕ → List α → List α
  | 0, _, acc => acc
  | remaining + 1, cursor, acc =>
    let per_page := min 50 (remaining + 1)
    match fetch cursor per_page with
    | none => acc
    | some [] => acc
    | some data =>
      if data.length < per_page then acc ++ data
      else if data.length = per_page then
        get_user_best_go fetch (remaining + 1 - per_page) (some (cursor.getD 1 + 1))
          (acc ++ data)
      else acc ++ data
termination_by remaining _ _ => remaining
decreasing_by
  omega

/-- `OsuApi.get_user_best(user_id, limit)` (src/osu_api.py lines 110-130):
starts with an empty accumulator, `remaining = limit`, no cursor. -/
def get_user_best (fetch : Option ℕ → ℕ → Option (List α)) (limit : ℕ) : List α :=
  get_user_best_go fetch limit none []

/-- `OsuApi.get_user_recent` (src/osu_api.py lines 132-135): a single
`_get` whose result is returned as `data or []`.  `data` is the oracle's
answer for the one request the method issues. -/
def get_user_recent (data : Option (List α)) : List α :=
  match data with
  | none => []
  | some l => l

/-- Minimal raw score payload, holding the two fields a mod-aware
difficulty recalculation would have to consult: the applied mod acronyms
and the raw `beatmap.difficulty_rating` from the score JSON. -/
structure RawScore where
  mods : List String
  difficulty_rating : ℚ
deriving Repr, DecidableEq

end OsuApi

namespace OsuHttp

/-- Retry loop of `do_request` inside `OsuHttpClient.get`/`post`
(src/osu_http.py lines 83-95): for each backoff delay in the schedule the
code first sleeps, then re-issues the request; the first success returns.
`attempt i` is the outcome of the i-th issue of the request (`none` =
`httpx.HTTPError`).  Returns the result together with the list of sleeps
actually performed. -/
def retry_attempts (attempt : ℕ → Option α) : List ℚ → ℕ → Option α × List ℚ
  | [], _ => (none, [])
  | t :: rest, i =>
    match attempt i with
    | some j => (some j, [t])
    | none =>
      let r := retry_attempts attempt rest (i + 1)
      (r.1, t :: r.2)

/-- `do_request` (src/osu_http.py lines 76-95): one initial attempt, then
the backoff schedule `(0.5, 1.0, 2.0)`; if every attempt fails the result
holder receives `None`. -/
def do_request (attempt : ℕ → Option α) : Option α × List ℚ :=
  match attempt 0 with
  | some j => (some j, [])
  | none => retry_attempts attempt [1/2, 1, 2] 1

/-- Observable outcome of one `OsuHttpClient.get`/`post` call: either the
token exchange raised (`result = .error e`) or the call completed with the
request's post-retry result. `job_enqueued` records whether a job reached
the serialization queue, `sleeps` the backoff sleeps performed. -/
structure CallOutcome (ε α : Type) where
  result : Except ε (Option α)
  job_enqueued : Bool
  sleeps : List ℚ

/-- `OsuHttpClient.get` (src/osu_http.py lines 67-105; `post`, lines
107-150, is identical in control flow).  `token` is the outcome of
`_ensure_token` (lines 49-65): `resp.raise_for_status()` there propagates,
so a failed exchange aborts before `jobwrap` is enqueued; a successful
exchange enqueues the job, whose `do_request` never raises. -/
def get (token : Except ε Unit) (attempt : ℕ → Option α) : CallOutcome ε α :=
  match token with
  | .error e => ⟨.error e, false, []⟩
  | .ok _ =>
    let r := do_request attempt
    ⟨.ok r.1, true, r.2⟩

/-- One queued job as the worker observes it: how long after the previous
job's completion it became available at `queue.get`, and how long its
execution takes. -/
structure Job where
  queue_delay : ℚ
  duration : ℚ

/-- The throttle of `OsuHttpClient._queue_worker` (src/osu_http.py lines
40-42): a job dequeued at instant `t` computes
`wait = 1.0 - (t - last_call)` and sleeps it when positive, so it starts at
`t + wait` in that case and at `t` otherwise. -/
def job_start (last_call t : ℚ) : ℚ :=
  if 0 < 1 - (t - last_call) then t + (1 - (t - last_call)) else t

/-- `OsuHttpClient._queue_worker` (src/osu_http.py lines 36-47), as the
schedule it produces: given `last_call` and the current instant `now`, each
iteration dequeues the next job at `now + queue_delay`, throttles it via
`job_start`, runs it, and records the completion instant into `last_call`
(the `finally` block) before looping.  Returns the (start, finish) instants
in FIFO submission order. -/
def queue_worker (last_call now : ℚ) : List Job → List (ℚ × ℚ)
  | [] => []
  | j :: rest =>
    let start := job_start last_call (now + j.queue_delay)
    (start, start + j.duration) ::
      queue_worker (start + j.duration) (start + j.duration) rest

end OsuHttp

namespace Storage

/-- `models.Play` (src/models.py lines 27-50).  The unique constraint
`uq_user_map_time` covers `(user_id, beatmap_id, timestamp)`; timestamps
are stored naive-UTC, modelled as integers. -/
structure Play where
  id : String
  user_id : String
  timestamp : ℤ
  beatmap_id : String
  map_length_seconds : ℚ
  star_rating : ℚ
  miss_count : ℤ
  accuracy_percent : ℚ
  pp : ℚ
  failed : Bool
  push_value : Option ℚ
  source : String
deriving Repr, DecidableEq

/-- The duplicate test of `Storage.insert_play_if_new` (src/storage.py
lines 54-60): same player, same beatmap, same timestamp. -/
def same_play_key (p q : Play) : Bool :=
  p.user_id = q.user_id ∧ p.beatmap_id = q.beatmap_id ∧ p.timestamp = q.timestamp

/-- `Storage.insert_play_if_new` (src/storage.py lines 52-64): if a row
with the key already exists return `false` and leave the table unchanged,
otherwise append the play and return `true`.  The plays table is the list
of stored rows. -/
def insert_play_if_new (db : List Play) (p : Play) : List Play × Bool :=
  if db.any (same_play_key p) then (db, false)
  else (db ++ [p], true)

/-- `models.TopStats` (src/models.py lines 52-67); unique over
`(user_id, month)`. -/
structure TopStats where
  id : String
  user_id : String
  month : String
  top10_avg_star_raw : ℚ
  top10_miss_sum : ℤ
  top_star_TS : ℚ
  top50_pp_threshold : ℚ
deriving Repr, DecidableEq

/-- Key equality used by `Storage.upsert_topstats`'s existence query
(src/storage.py lines 100-102). -/
def same_stats_key (a b : TopStats) : Bool :=
  a.user_id = b.user_id ∧ a.month = b.month

/-- The field assignment of src/storage.py lines 104-107: the existing
row keeps its identity but takes all four payload fields from `ts`. -/
def overwrite_stats (existing ts : TopStats) : TopStats :=
  { existing with
    top10_avg_star_raw := ts.top10_avg_star_raw
    top10_miss_sum := ts.top10_miss_sum
    top_star_TS := ts.top_star_TS
    top50_pp_threshold := ts.top50_pp_threshold }

/-- `Storage.upsert_topstats` (src/storage.py lines 98-109): if a row for
`(user_id, month)` exists, assign the four payload fields onto it
(the `(user_id, month)` unique constraint guarantees at most one match);
otherwise add `ts` as a new row. -/
def upsert_topstats (db : List TopStats) (ts : TopStats) : List TopStats :=
  if db.any (same_stats_key ts) then
    db.map (fun e => if same_stats_key ts e then overwrite_stats e ts else e)
  else db ++ [ts]

/-- Sample play used to instantiate the storage theorems on concrete data. -/
def sample_play : Play :=
  ⟨"play-1", "user-1", 0, "map-1", 100, 5, 0, 98, 200, false, none, "recent"⟩

/-- Sample stored baseline row for a (player, month). -/
def sample_stats_old : TopStats := ⟨"row1", "u1", "2024-01", 1, 0, 1, 100⟩

/-- A second baseline computation for the same (player, month) with
different field values. -/
def sample_stats_new : TopStats := ⟨"row2", "u1", "2024-01", 2, 5, 3, 200⟩

end Storage

namespace Bot

/-- The inner per-score loop of `OsuBot.fetch_last_24h_for_all`
(src/bot.py lines 371-383).  `step` is the body for one score: timestamp
parsing, window filtering, `ScoreRow.from_osu_json` and `insert_score`;
it may raise (`.error`), skip the score (`.ok none`), or store a row
(`.ok (some r)`).  The loop body is not inside any `try`, so the first
raise aborts the loop, keeping the rows stored before it. -/
def process_scores (step : σ → Except ε (Option ρ)) :
    List σ → List ρ × Option ε
  | [] => ([], none)
  | s :: rest =>
    match step s with
    | .error e => ([], some e)
    | .ok none => process_scores step rest
    | .ok (some r) =>
      let q := process_scores step rest
      (r :: q.1, q.2)

/-- `OsuBot.fetch_last_24h_for_all` (src/bot.py lines 355-384) over the
player list.  Only the `recent_scores` fetch (lines 365-369) sits inside
`try/except Exception: continue`; the per-score loop that follows is
unprotected, so an exception there propagates out of the whole batch.
Returns the `(player, stored rows)` pairs for players whose loop ran,
plus the exception that aborted the batch, if any. -/
def fetch_last_24h_for_all (fetch : π → Except Unit (List σ))
    (step : σ → Except ε (Option ρ)) :
    List π → List (π × List ρ) × Option ε
  | [] => ([], none)
  | p :: rest =>
    match fetch p with
    | .error _ => fetch_last_24h_for_all fetch step rest
    | .ok scores =>
      let q := process_scores step scores
      match q.2 with
      | some e => ([(p, q.1)], some e)
      | none =>
        let out := fetch_last_24h_for_all fetch step rest
        ((p, q.1) :: out.1, out.2)

end Bot

/-! ### Scoring function: case lemmas shared by the claims about
`compute_push_value` -/

lemma push_case1 (i : Compute.PushInputs)
    (h1 : i.pp > i.top50_pp_threshold) (h2 : i.SR < i.TS) :
    Compute.compute_push_value i = max (-10000) (-10000 * (i.TS - i.SR)) := by
  unfold Compute.compute_push_value
  rw [if_pos ⟨h1, h2⟩]

lemma push_case2 (i : Compute.PushInputs)
    (h1 : i.pp > i.top50_pp_threshold) (h2 : i.SR ≥ i.TS) :
    Compute.compute_push_value i = 0 := by
  have g1 : ¬(i.pp > i.top50_pp_threshold ∧ i.SR < i.TS) := by
    rintro ⟨-, a⟩; linarith
  unfold Compute.compute_push_value
  rw [if_neg g1, if_pos ⟨h1, h2⟩]

lemma push_case3 (i : Compute.PushInputs)
    (h1 : i.pp ≤ i.top50_pp_threshold) (h2 : i.accuracy_percent > 95) :
    Compute.compute_push_value i = 0 := by
  have g1 : ¬(i.pp > i.top50_pp_threshold ∧ i.SR < i.TS) := by
    rintro ⟨a, -⟩; linarith
  have g2 : ¬(i.pp > i.top50_pp_threshold ∧ i.SR ≥ i.TS) := by
    rintro ⟨a, -⟩; linarith
  unfold Compute.compute_push_value
  rw [if_neg g1, if_neg g2, if_pos ⟨h1, h2⟩]

lemma push_case4 (i : Compute.PushInputs)
    (h1 : i.pp ≤ i.top50_pp_threshold)
    (h2 : 92 ≤ i.accuracy_percent) (h3 : i.accuracy_percent ≤ 95) :
    Compute.compute_push_value i =
      ((95 - i.accuracy_percent) / 3) * i.map_length_seconds := by
  have g1 : ¬(i.pp > i.top50_pp_threshold ∧ i.SR < i.TS) := by
    rintro ⟨a, -⟩; linarith
  have g2 : ¬(i.pp > i.top50_pp_threshold ∧ i.SR ≥ i.TS) := by
    rintro ⟨a, -⟩; linarith
  have g3 : ¬(i.pp ≤ i.top50_pp_threshold ∧ i.accuracy_percent > 95) := by
    rintro ⟨-, a⟩; linarith
  unfold Compute.compute_push_value
  rw [if_neg g1, if_neg g2, if_neg g3, if_pos ⟨h1, h2, h3⟩]

lemma push_case5 (i : Compute.PushInputs)
    (h1 : i.pp ≤ i.top50_pp_threshold)
    (h2 : 85 ≤ i.accuracy_percent) (h3 : i.accuracy_percent < 92) :
    Compute.compute_push_value i = i.map_length_seconds := by
  have g1 : ¬(i.pp > i.top50_pp_threshold ∧ i.SR < i.TS) := by
    rintro ⟨a, -⟩; linarith
  have g2 : ¬(i.pp > i.top50_pp_threshold ∧ i.SR ≥ i.TS) := by
    rintro ⟨a, -⟩; linarith
  have g3 : ¬(i.pp ≤ i.top50_pp_threshold ∧ i.accuracy_percent > 95) := by
    rintro ⟨-, a⟩; linarith
  have g4 : ¬(i.pp ≤ i.top50_pp_threshold ∧
      92 ≤ i.accuracy_percent ∧ i.accuracy_percent ≤ 95) := by
    rintro ⟨-, a, -⟩; linarith
  unfold Compute.compute_push_value
  rw [if_neg g1, if_neg g2, if_neg g3, if_neg g4, if_pos ⟨h1, h2, h3⟩]

lemma push_case6 (i : Compute.PushInputs)
    (h1 : i.pp ≤ i.top50_pp_threshold)
    (h2 : 75 ≤ i.accuracy_percent) (h3 : i.accuracy_percent < 85) :
    Compute.compute_push_value i =
      (8 / 100 * i.accuracy_percent - 58 / 10) * i.map_length_seconds := by
  have g1 : ¬(i.pp > i.top50_pp_threshold ∧ i.SR < i.TS) := by
    rintro ⟨a, -⟩; linarith
  have g2 : ¬(i.pp > i.top50_pp_threshold ∧ i.SR ≥ i.TS) := by
    rintro ⟨a, -⟩; linarith
  have g3 : ¬(i.pp ≤ i.top50_pp_threshold ∧ i.accuracy_percent > 95) := by
    rintro ⟨-, a⟩; linarith
  have g4 : ¬(i.pp ≤ i.top50_pp_threshold ∧
      92 ≤ i.accuracy_percent ∧ i.accuracy_percent ≤ 95) := by
    rintro ⟨-, a, -⟩; linarith
  have g5 : ¬(i.pp ≤ i.top50_pp_threshold ∧
      85 ≤ i.accuracy_percent ∧ i.accuracy_percent < 92) := by
    rintro ⟨-, a, -⟩; linarith
  unfold Compute.compute_push_value
  rw [if_neg g1, if_neg g2, if_neg g3, if_neg g4, if_neg g5,
    if_pos ⟨h1, h2, h3⟩]

lemma push_case7 (i : Compute.PushInputs)
    (h1 : i.pp ≤ i.top50_pp_threshold) (h2 : i.accuracy_percent < 75) :
    Compute.compute_push_value i = 2 / 10 * i.map_length_seconds := by
  have g1 : ¬(i.pp > i.top50_pp_threshold ∧ i.SR < i.TS) := by
    rintro ⟨a, -⟩; linarith
  have g2 : ¬(i.pp > i.top50_pp_threshold ∧ i.SR ≥ i.TS) := by
    rintro ⟨a, -⟩; linarith
  have g3 : ¬(i.pp ≤ i.top50_pp_threshold ∧ i.accuracy_percent > 95) := by
    rintro ⟨-, a⟩; linarith
  have g4 : ¬(i.pp ≤ i.top50_pp_threshold ∧
      92 ≤ i.accuracy_percent ∧ i.accuracy_percent ≤ 95) := by
    rintro ⟨-, a, -⟩; linarith
  have g5 : ¬(i.pp ≤ i.top50_pp_threshold ∧
      85 ≤ i.accuracy_percent ∧ i.accuracy_percent < 92) := by
    rintro ⟨-, a, -⟩; linarith
  have g6 : ¬(i.pp ≤ i.top50_pp_threshold ∧
      75 ≤ i.accuracy_percent ∧ i.accuracy_percent < 85) := by
    rintro ⟨-, a, -⟩; linarith
  unfold Compute.compute_push_value
  rw [if_neg g1, if_neg g2, if_neg g3, if_neg g4, if_neg g5, if_neg g6,
    if_pos ⟨h1, h2⟩]

/-- The seven guards of `compute_push_value` cover every input, so the
trailing `return 0.0` default is unreachable (totality of the case split). -/
lemma push_guards_cover (i : Compute.PushInputs) :
    (i.pp > i.top50_pp_threshold ∧ i.SR < i.TS) ∨
    (i.pp > i.top50_pp_threshold ∧ i.SR ≥ i.TS) ∨
    (i.pp ≤ i.top50_pp_threshold ∧ i.accuracy_percent > 95) ∨
    (i.pp ≤ i.top50_pp_threshold ∧
      92 ≤ i.accuracy_percent ∧ i.accuracy_percent ≤ 95) ∨
    (i.pp ≤ i.top50_pp_threshold ∧
      85 ≤ i.accuracy_percent ∧ i.accuracy_percent < 92) ∨
    (i.pp ≤ i.top50_pp_threshold ∧
      75 ≤ i.accuracy_percent ∧ i.accuracy_percent < 85) ∨
    (i.pp ≤ i.top50_pp_threshold ∧ i.accuracy_percent < 75) := by
  rcases le_or_lt i.pp i.top50_pp_threshold with hp | hp
  · rcases lt_or_le 95 i.accuracy_percent with h95 | h95
    · exact Or.inr (Or.inr (Or.inl ⟨hp, h95⟩))
    · rcases le_or_lt 92 i.accuracy_percent with h92 | h92
      · exact Or.inr (Or.inr (Or.inr (Or.inl ⟨hp, h92, h95⟩)))
      · rcases le_or_lt 85 i.accuracy_percent with h85 | h85
        · exact Or.inr (Or.inr (Or.inr (Or.inr (Or.inl ⟨hp, h85, h92⟩))))
        · rcases le_or_lt 75 i.accuracy_percent with h75 | h75
          · exact Or.inr (Or.inr (Or.inr (Or.inr (Or.inr (Or.inl ⟨hp, h75, h85⟩)))))
          · exact Or.inr (Or.inr (Or.inr (Or.inr (Or.inr (Or.inr ⟨hp, h75⟩)))))
  · rcases lt_or_le i.SR i.TS with hs | hs
    · exact Or.inl ⟨hp, hs⟩
    · exact Or.inr (Or.inl ⟨hp, hs⟩)

/-- Claim C1: `compute_push_value` returns the value of the first matching
case of the spec's ordered list with exactly the stated open/closed
boundaries — the seven case implications below — and the seven guards cover
every input (totality of the case analysis; the trailing default `0` is
unreachable).  The embedding is a Lean function on `ℚ`, so the computation
is total and deterministic with no exceptions. -/
theorem compute_push_value_ordered_cases (i : Compute.PushInputs) :
    (i.pp > i.top50_pp_threshold → i.SR < i.TS →
      Compute.compute_push_value i = max (-10000) (-10000 * (i.TS - i.SR))) ∧
    (i.pp > i.top50_pp_threshold → i.SR ≥ i.TS →
      Compute.compute_push_value i = 0) ∧
    (i.pp ≤ i.top50_pp_threshold → i.accuracy_percent > 95 →
      Compute.compute_push_value i = 0) ∧
    (i.pp ≤ i.top50_pp_threshold →
      92 ≤ i.accuracy_percent → i.accuracy_percent ≤ 95 →
      Compute.compute_push_value i =
        ((95 - i.accuracy_percent) / 3) * i.map_length_seconds) ∧
    (i.pp ≤ i.top50_pp_threshold →
      85 ≤ i.accuracy_percent → i.accuracy_percent < 92 →
      Compute.compute_push_value i = i.map_length_seconds) ∧
    (i.pp ≤ i.top50_pp_threshold →
      75 ≤ i.accuracy_percent → i.accuracy_percent < 85 →
      Compute.compute_push_value i =
        (8 / 100 * i.accuracy_percent - 58 / 10) * i.map_length_seconds) ∧
    (i.pp ≤ i.top50_pp_threshold → i.accuracy_percent < 75 →
      Compute.compute_push_value i = 2 / 10 * i.map_length_seconds) ∧
    ((i.pp > i.top50_pp_threshold ∧ i.SR < i.TS) ∨
      (i.pp > i.top50_pp_threshold ∧ i.SR ≥ i.TS) ∨
      (i.pp ≤ i.top50_pp_threshold ∧ i.accuracy_percent > 95) ∨
      (i.pp ≤ i.top50_pp_threshold ∧
        92 ≤ i.accuracy_percent ∧ i.accuracy_percent ≤ 95) ∨
      (i.pp ≤ i.top50_pp_threshold ∧
        85 ≤ i.accuracy_percent ∧ i.accuracy_percent < 92) ∨
      (i.pp ≤ i.top50_pp_threshold ∧
        75 ≤ i.accuracy_percent ∧ i.accuracy_percent < 85) ∨
      (i.pp ≤ i.top50_pp_threshold ∧ i.accuracy_percent < 75)) :=
  ⟨push_case1 i, push_case2 i, push_case3 i, push_case4 i, push_case5 i,
    push_case6 i, push_case7 i, push_guards_cover i⟩

/-- Witness for C1: the spec scenario pp=200, SR=4, TS=5, accuracy=90,
length=100, pp50=250 lands in case 5 and yields 100. -/
theorem compute_push_value_ordered_cases_witness :
    Compute.compute_push_value ⟨200, 4, 5, 90, 100, 250⟩ = 100 :=
  (compute_push_value_ordered_cases ⟨200, 4, 5, 90, 100, 250⟩).2.2.2.2.1
    (by norm_num) (by norm_num) (by norm_num)

/-- Claim C3: `compute_TS d m = d - sqrt m / 10` for every average `d` and
every nonnegative miss sum `m` (the miss sum is a `ℕ`, covering exactly the
`m ≥ 0` domain); in particular `compute_TS d 0 = d`, and
`compute_TS 6 25 = 5.5`. -/
theorem compute_TS_formula :
    (∀ (d : ℝ) (m : ℕ), Compute.compute_TS d m = d - Real.sqrt m / 10) ∧
    (∀ d : ℝ, Compute.compute_TS d 0 = d) ∧
    Compute.compute_TS 6 25 = 5.5 := by
  refine ⟨fun d m => rfl, fun d => ?_, ?_⟩
  · simp [Compute.compute_TS]
  · unfold Compute.compute_TS
    rw [show ((25 : ℕ) : ℝ) = 5 ^ 2 by norm_num,
      Real.sqrt_sq (by norm_num : (0 : ℝ) ≤ 5)]
    norm_num

/-- Claim C4: for `pp ≤ pp50Threshold`, accuracy exactly 95 yields 0 (the
same value case 3 gives), and accuracy exactly 92 yields
`((95-92)/3)*L = L`, matching case 5's value just below 92. -/
theorem compute_push_value_boundary_continuity
    (pp SR TS L t : ℚ) (h : pp ≤ t) :
    Compute.compute_push_value ⟨pp, SR, TS, 95, L, t⟩ = 0 ∧
    Compute.compute_push_value ⟨pp, SR, TS, 92, L, t⟩ = L := by
  constructor
  · rw [push_case4 ⟨pp, SR, TS, 95, L, t⟩ h (by norm_num) (by norm_num)]
    ring
  · rw [push_case4 ⟨pp, SR, TS, 92, L, t⟩ h (by norm_num) (by norm_num)]
    ring

/-- Witness for C4 at pp=200, pp50=250, L=120. -/
theorem compute_push_value_boundary_continuity_witness :
    Compute.compute_push_value ⟨200, 4, 5, 95, 120, 250⟩ = 0 ∧
    Compute.compute_push_value ⟨200, 4, 5, 92, 120, 250⟩ = 120 :=
  compute_push_value_boundary_continuity 200 4 5 120 250 (by norm_num)

/-! ### Rate-limited client: retry/null conversion vs. auth propagation -/

/-- Claim C5: a `get`/`post` call raises exactly when the credential
exchange raises: a token failure propagates before any job is enqueued;
with a valid token the call never raises — the request is attempted once
and, on failure, retried up to 3 more times preceded by sleeps of 0.5s,
1.0s and 2.0s, degrading to `null` when every attempt fails. -/
theorem http_get_raises_iff_auth_fails (ε α : Type)
    (token : Except ε Unit) (attempt : ℕ → Option α) :
    (∀ e : ε, token = .error e →
      OsuHttp.get token attempt = ⟨.error e, false, []⟩) ∧
    (token = .ok () →
      (OsuHttp.get token attempt).job_enqueued = true ∧
      ∃ r, (OsuHttp.get token attempt).result = .ok r) ∧
    (token = .ok () → ∀ j, attempt 0 = some j →
      OsuHttp.get token attempt = ⟨.ok (some j), true, []⟩) ∧
    (token = .ok () → (∀ i, i ≤ 3 → attempt i = none) →
      OsuHttp.get token attempt = ⟨.ok none, true, [1/2, 1, 2]⟩) := by
  refine ⟨?_, ?_, ?_, ?_⟩
  · rintro e rfl; rfl
  · rintro rfl
    exact ⟨rfl, (OsuHttp.do_request attempt).1, rfl⟩
  · rintro rfl j hj
    simp [OsuHttp.get, OsuHttp.do_request, hj]
  · rintro rfl hall
    have h0 := hall 0 (by norm_num)
    have h1 := hall 1 (by norm_num)
    have h2 := hall 2 (by norm_num)
    have h3 := hall 3 (by norm_num)
    simp [OsuHttp.get, OsuHttp.do_request, OsuHttp.retry_attempts,
      h0, h1, h2, h3]

/-- Witness for C5: with a valid token and a request that fails on all four
attempts, the call completes with `null` after the full backoff schedule. -/
theorem http_get_raises_iff_auth_fails_witness :
    OsuHttp.get (Except.ok ()) (fun _ => (none : Option Unit)) =
      (⟨Except.ok none, true, [1/2, 1, 2]⟩ : OsuHttp.CallOutcome Unit Unit) :=
  (http_get_raises_iff_auth_fails Unit Unit (Except.ok ())
    (fun _ => none)).2.2.2 rfl (fun _ _ => rfl)

/-! ### Queue worker: serialization and the 1.0s rate floor -/

/-- Whatever the dequeue instant, a job starts no earlier than one second
after the recorded completion of the previous job. -/
lemma job_start_ge (lc t : ℚ) : lc + 1 ≤ OsuHttp.job_start lc t := by
  unfold OsuHttp.job_start
  split_ifs with h <;> linarith

/-- Unfolding of one worker iteration. -/
lemma queue_worker_cons (lc now : ℚ) (j : OsuHttp.Job)
    (rest : List OsuHttp.Job) :
    OsuHttp.queue_worker lc now (j :: rest) =
      (OsuHttp.job_start lc (now + j.queue_delay),
        OsuHttp.job_start lc (now + j.queue_delay) + j.duration) ::
      OsuHttp.queue_worker
        (OsuHttp.job_start lc (now + j.queue_delay) + j.duration)
        (OsuHttp.job_start lc (now + j.queue_delay) + j.duration) rest := rfl

/-- The first scheduled job starts at least one second after `last_call`. -/
lemma queue_worker_head_start (lc now : ℚ) (jobs : List OsuHttp.Job) :
    ∀ x ∈ (OsuHttp.queue_worker lc now jobs).head?, lc + 1 ≤ x.1 := by
  cases jobs with
  | nil => simp [OsuHttp.queue_worker]
  | cons j rest =>
    intro x hx
    rw [queue_worker_cons, List.head?_cons, Option.mem_some_iff] at hx
    rw [← hx]
    exact job_start_ge lc (now + j.queue_delay)

/-- Adjacent schedule entries: the later job starts strictly after the
earlier finished and at least one second after the earlier started. -/
lemma queue_worker_chain (jobs : List OsuHttp.Job)
    (hd : ∀ j ∈ jobs, 0 ≤ j.duration) :
    ∀ lc now, List.Chain' (fun a b => a.2 < b.1 ∧ a.1 + 1 ≤ b.1)
      (OsuHttp.queue_worker lc now jobs) := by
  induction jobs with
  | nil => intro lc now; simp [OsuHttp.queue_worker]
  | cons j rest ih =>
    intro lc now
    have hj : 0 ≤ j.duration := hd j (List.mem_cons_self j rest)
    have hrest : ∀ x ∈ rest, 0 ≤ x.duration :=
      fun x hx => hd x (List.mem_cons_of_mem j hx)
    rw [queue_worker_cons]
    refine List.chain'_cons'.mpr ⟨?_, ih hrest _ _⟩
    intro b hb
    have h1 := queue_worker_head_start _ _ rest b hb
    refine ⟨?_, ?_⟩ <;> dsimp only <;> linarith

/-- From the adjacent-separation chain, starts that are `k` positions apart
in the schedule are at least `k` seconds apart. -/
lemma chain'_start_separation (l : List (ℚ × ℚ))
    (hc : List.Chain' (fun a b : ℚ × ℚ => a.2 < b.1 ∧ a.1 + 1 ≤ b.1) l) :
    ∀ (i k : ℕ) (h : i + k < l.length),
      (l.get ⟨i, by omega⟩).1 + (k : ℚ) ≤ (l.get ⟨i + k, h⟩).1 := by
  intro i k
  induction k with
  | zero => intro h; simp
  | succ n ihn =>
    intro h
    have h1 : i + n < l.length := by omega
    have step := (List.chain'_iff_get.mp hc) (i + n) (by omega)
    have ih2 := ihn h1
    push_cast
    have : (l.get ⟨i + n, h1⟩).1 + 1 ≤ (l.get ⟨i + n + 1, by omega⟩).1 :=
      step.2
    have hix : i + (n + 1) = i + n + 1 := by omega
    rw [show (⟨i + (n + 1), h⟩ : Fin l.length) = ⟨i + n + 1, by omega⟩ from
      Fin.ext hix]
    linarith

/-- Claim C6: the worker executes jobs one at a time in FIFO submission
order — the schedule lists (start, finish) pairs in submission order, each
job finishing strictly before the next starts — with consecutive starts at
least 1.0s apart; consequently starts `k` positions apart differ by at
least `k` seconds, so N queued jobs need at least `(N-1) × 1.0s` of wall
time until the last one starts. -/
theorem queue_worker_fifo_rate_floor (lc now : ℚ)
    (jobs : List OsuHttp.Job) (hd : ∀ j ∈ jobs, 0 ≤ j.duration) :
    List.Chain' (fun a b => a.2 < b.1 ∧ a.1 + 1 ≤ b.1)
      (OsuHttp.queue_worker lc now jobs) ∧
    ∀ (i k : ℕ) (h : i + k < (OsuHttp.queue_worker lc now jobs).length),
      ((OsuHttp.queue_worker lc now jobs).get ⟨i, by omega⟩).1 + (k : ℚ) ≤
      ((OsuHttp.queue_worker lc now jobs).get ⟨i + k, h⟩).1 :=
  ⟨queue_worker_chain jobs hd lc now,
    chain'_start_separation _ (queue_worker_chain jobs hd lc now)⟩

/-- Witness for C6: two immediately-available instant jobs start at t=1 and
t=2, one second apart, the first finishing before the second starts. -/
theorem queue_worker_fifo_rate_floor_witness :
    List.Chain' (fun a b => a.2 < b.1 ∧ a.1 + 1 ≤ b.1)
      (OsuHttp.queue_worker 0 0 [⟨0, 0⟩, ⟨0, 0⟩]) :=
  (queue_worker_fifo_rate_floor 0 0 [⟨0, 0⟩, ⟨0, 0⟩]
    (by intro j hj; fin_cases hj <;> norm_num)).1

/-! ### API wrapper: pagination, null-freedom, and raw payload passthrough -/

/-- Every score produced by the pagination loop was already in the
accumulator or sits, unchanged, in some page the oracle returned: the loop
never rewrites a payload. -/
lemma get_user_best_go_mem (fetch : Option ℕ → ℕ → Option (List α)) :
    ∀ (remaining : ℕ) (cursor : Option ℕ) (acc : List α) (s : α),
      s ∈ OsuApi.get_user_best_go fetch remaining cursor acc →
      s ∈ acc ∨ ∃ c n l, fetch c n = some l ∧ s ∈ l := by
  intro remaining
  induction remaining using Nat.strong_induction_on with
  | _ remaining ih =>
    match remaining with
    | 0 =>
      intro cursor acc s hs
      rw [OsuApi.get_user_best_go] at hs
      exact Or.inl hs
    | r + 1 =>
      intro cursor acc s hs
      rw [OsuApi.get_user_best_go] at hs
      rcases hf : fetch cursor (min 50 (r + 1)) with - | l
      · rw [hf] at hs
        exact Or.inl hs
      · rcases l with - | ⟨d, ds⟩
        · rw [hf] at hs
          exact Or.inl hs
        · rw [hf] at hs
          dsimp only at hs
          by_cases hlen : (d :: ds).length < min 50 (r + 1)
          · rw [if_pos hlen] at hs
            rcases List.mem_append.mp hs with h | h
            · exact Or.inl h
            · exact Or.inr ⟨cursor, min 50 (r + 1), d :: ds, hf, h⟩
          · rw [if_neg hlen] at hs
            by_cases heq : (d :: ds).length = min 50 (r + 1)
            · rw [if_pos heq] at hs
              have hlt : r + 1 - min 50 (r + 1) < r + 1 := by omega
              rcases ih _ hlt _ _ _ hs with h | h
              · rcases List.mem_append.mp h with h2 | h2
                · exact Or.inl h2
                · exact Or.inr ⟨cursor, min 50 (r + 1), d :: ds, hf, h2⟩
              · exact Or.inr h
            · rw [if_neg heq] at hs
              rcases List.mem_append.mp hs with h | h
              · exact Or.inl h
              · exact Or.inr ⟨cursor, min 50 (r + 1), d :: ds, hf, h⟩

/-- Counterexample to C2: `get_user_best` returns a play whose applied mod
set `["HD", "DT"]` has two elements — so it is neither empty nor any single
scoring-neutral mod alone — yet the play still carries the raw
`difficulty_rating` 5 from the score payload, byte for byte: no
beatmap-attributes query exists anywhere in `get_user_best`/
`get_user_recent` (src/osu_api.py lines 110-135), and `get_user_recent`
passes the same payload through as well. -/
theorem get_user_best_raw_difficulty_counterexample :
    OsuApi.get_user_best
      (fun _ _ => some [(⟨["HD", "DT"], 5⟩ : OsuApi.RawScore)]) 50 =
      [(⟨["HD", "DT"], 5⟩ : OsuApi.RawScore)] ∧
    OsuApi.get_user_recent (some [(⟨["HD", "DT"], 5⟩ : OsuApi.RawScore)]) =
      [(⟨["HD", "DT"], 5⟩ : OsuApi.RawScore)] ∧
    (⟨["HD", "DT"], 5⟩ : OsuApi.RawScore).difficulty_rating = 5 ∧
    (⟨["HD", "DT"], 5⟩ : OsuApi.RawScore).mods.length = 2 := by
  refine ⟨?_, rfl, rfl, rfl⟩
  simp [OsuApi.get_user_best, OsuApi.get_user_best_go]

/-- Claim C2 amended: `get_user_best` and `get_user_recent` perform no
difficulty recalculation for any mod set — every play they return is an
unmodified element of a page the underlying request produced, raw
difficulty rating included (the score type is opaque to both functions, so
no field can be rewritten). -/
theorem api_scores_returned_unmodified (α : Type) :
    (∀ (fetch : Option ℕ → ℕ → Option (List α)) (limit : ℕ) (s : α),
      s ∈ OsuApi.get_user_best fetch limit →
      ∃ c n l, fetch c n = some l ∧ s ∈ l) ∧
    (∀ (data : Option (List α)) (s : α),
      s ∈ OsuApi.get_user_recent data → ∃ l, data = some l ∧ s ∈ l) := by
  constructor
  · intro fetch limit s hs
    rcases get_user_best_go_mem fetch limit none [] s hs with h | h
    · simp at h
    · exact h
  · intro data s hs
    rcases data with - | l
    · simp [OsuApi.get_user_recent] at hs
    · exact ⟨l, rfl, hs⟩

/-- Witness for the amended C2: the single returned play of the
counterexample oracle is located inside an oracle page. -/
theorem api_scores_returned_unmodified_witness :
    ∃ c n l,
      (fun (_ : Option ℕ) (_ : ℕ) =>
        some [(⟨["HD", "DT"], 5⟩ : OsuApi.RawScore)]) c n = some l ∧
      (⟨["HD", "DT"], 5⟩ : OsuApi.RawScore) ∈ l :=
  (api_scores_returned_unmodified OsuApi.RawScore).1
    (fun _ _ => some [⟨["HD", "DT"], 5⟩]) 50 ⟨["HD", "DT"], 5⟩
    (by simp [OsuApi.get_user_best, OsuApi.get_user_best_go])

/-- Claim C10: the sequence-returning fetches never yield `null`:
`get_user_recent` returns the page or `[]` when the rate-limited request
degraded to `null`, and the `get_user_best` loop returns the accumulator
built so far whenever a page request yields `null` or a short page — both
are total functions into lists, so no `null` and no exception escapes. -/
theorem api_fetch_never_null (α : Type) :
    (∀ data : Option (List α), OsuApi.get_user_recent data = data.getD []) ∧
    ∀ (fetch : Option ℕ → ℕ → Option (List α)) (remaining : ℕ)
      (cursor : Option ℕ) (acc : List α), 0 < remaining →
      (fetch cursor (min 50 remaining) = none →
        OsuApi.get_user_best_go fetch remaining cursor acc = acc) ∧
      ∀ l, fetch cursor (min 50 remaining) = some l →
        l.length < min 50 remaining →
        OsuApi.get_user_best_go fetch remaining cursor acc = acc ++ l := by
  constructor
  · intro data
    cases data <;> rfl
  · intro fetch remaining cursor acc hpos
    obtain ⟨r, rfl⟩ : ∃ r, remaining = r + 1 := ⟨remaining - 1, by omega⟩
    constructor
    · intro hf
      rw [OsuApi.get_user_best_go, hf]
    · intro l hf hlen
      rw [OsuApi.get_user_best_go, hf]
      rcases l with - | ⟨d, ds⟩
      · simp
      · dsimp only
        rw [if_pos hlen]

/-- Witness for C10: with every request failing, `get_user_recent` returns
`[]` and a 50-item `get_user_best` pagination returns its (empty)
accumulator. -/
theorem api_fetch_never_null_witness :
    OsuApi.get_user_recent (none : Option (List ℕ)) = [] ∧
    OsuApi.get_user_best_go (fun _ _ => (none : Option (List ℕ)))
      50 none [] = [] := by
  constructor
  · exact (api_fetch_never_null ℕ).1 none
  · exact ((api_fetch_never_null ℕ).2 (fun _ _ => none) 50 none []
      (by norm_num)).1 rfl

/-! ### Storage: idempotent play ingestion and baseline upsert -/

/-- Claim C7: play ingestion is idempotent on (player, beatmap, timestamp):
on a table without the key, the first `insert_play_if_new` returns `true`
and appends the play, the second call with the same key returns `false` and
leaves the table unchanged, and exactly one stored record matches the key. -/
theorem insert_play_if_new_idempotent (db : List Storage.Play)
    (p : Storage.Play) (h : db.any (Storage.same_play_key p) = false) :
    (Storage.insert_play_if_new db p).2 = true ∧
    (Storage.insert_play_if_new db p).1 = db ++ [p] ∧
    Storage.insert_play_if_new (db ++ [p]) p = (db ++ [p], false) ∧
    (db ++ [p]).countP (Storage.same_play_key p) = 1 := by
  have hself : Storage.same_play_key p p = true := by
    simp [Storage.same_play_key]
  have hzero : db.countP (Storage.same_play_key p) = 0 :=
    List.countP_eq_zero.mpr (fun a ha => by
      have := List.any_eq_false.mp h a ha
      simpa using this)
  refine ⟨?_, ?_, ?_, ?_⟩
  · simp [Storage.insert_play_if_new, h]
  · simp [Storage.insert_play_if_new, h]
  · simp [Storage.insert_play_if_new, List.any_append, h, hself]
  · rw [List.countP_append, hzero]
    simp [hself]

/-- Witness for C7 on an empty table and a concrete play. -/
theorem insert_play_if_new_idempotent_witness :
    (Storage.insert_play_if_new [] Storage.sample_play).2 = true ∧
    (Storage.insert_play_if_new [] Storage.sample_play).1 =
      [] ++ [Storage.sample_play] ∧
    Storage.insert_play_if_new ([] ++ [Storage.sample_play])
      Storage.sample_play = ([] ++ [Storage.sample_play], false) ∧
    ([] ++ [Storage.sample_play]).countP
      (Storage.same_play_key Storage.sample_play) = 1 :=
  insert_play_if_new_idempotent [] Storage.sample_play rfl

/-- Counterexample to C8 as stated: persisting a second baseline for the
same (player, month) does NOT leave the stored fields unchanged —
`upsert_topstats` assigns the new values onto the existing row
(src/storage.py lines 103-107), so the stored `top10_avg_star_raw` becomes
2, not the first writer's 1: the last writer wins, not the first. -/
theorem upsert_topstats_overwrite_counterexample :
    Storage.upsert_topstats [⟨"row1", "u1", "2024-01", 1, 0, 1, 100⟩]
      ⟨"row2", "u1", "2024-01", 2, 5, 3, 200⟩ =
      [⟨"row1", "u1", "2024-01", 2, 5, 3, 200⟩] ∧
    (⟨"row1", "u1", "2024-01", 2, 5, 3, 200⟩ :
      Storage.TopStats).top10_avg_star_raw ≠
    (⟨"row1", "u1", "2024-01", 1, 0, 1, 100⟩ :
      Storage.TopStats).top10_avg_star_raw := by
  constructor
  · decide
  · decide

/-- Claim C8 amended: when a baseline already exists for (player, month),
`upsert_topstats` creates no second row and keeps the row's identity, but
assigns all four payload fields from the newly supplied value onto the
existing row — the LAST writer wins; rows for other (player, month) keys
pass through untouched. -/
theorem upsert_topstats_last_writer_wins (db : List Storage.TopStats)
    (ts e : Storage.TopStats) (he : e ∈ db)
    (hkey : Storage.same_stats_key ts e = true) :
    (Storage.upsert_topstats db ts).length = db.length ∧
    Storage.overwrite_stats e ts ∈ Storage.upsert_topstats db ts ∧
    (Storage.overwrite_stats e ts).id = e.id ∧
    (Storage.overwrite_stats e ts).top10_avg_star_raw =
      ts.top10_avg_star_raw ∧
    (Storage.overwrite_stats e ts).top10_miss_sum = ts.top10_miss_sum ∧
    (Storage.overwrite_stats e ts).top_star_TS = ts.top_star_TS ∧
    (Storage.overwrite_stats e ts).top50_pp_threshold =
      ts.top50_pp_threshold ∧
    ∀ f ∈ db, Storage.same_stats_key ts f = false →
      f ∈ Storage.upsert_topstats db ts := by
  have hany : db.any (Storage.same_stats_key ts) = true :=
    List.any_eq_true.mpr ⟨e, he, hkey⟩
  refine ⟨?_, ?_, rfl, rfl, rfl, rfl, rfl, ?_⟩
  · unfold Storage.upsert_topstats
    rw [if_pos hany]
    simp
  · unfold Storage.upsert_topstats
    rw [if_pos hany]
    exact List.mem_map.mpr ⟨e, he, by rw [if_pos hkey]⟩
  · intro f hf hneq
    unfold Storage.upsert_topstats
    rw [if_pos hany]
    exact List.mem_map.mpr ⟨f, hf, by rw [if_neg (by simp [hneq])]⟩

/-- Witness for the amended C8 on the concrete racing rows. -/
theorem upsert_topstats_last_writer_wins_witness :
    (Storage.upsert_topstats [Storage.sample_stats_old]
      Storage.sample_stats_new).length = [Storage.sample_stats_old].length ∧
    Storage.overwrite_stats Storage.sample_stats_old Storage.sample_stats_new ∈
      Storage.upsert_topstats [Storage.sample_stats_old]
        Storage.sample_stats_new :=
  ⟨(upsert_topstats_last_writer_wins [Storage.sample_stats_old]
      Storage.sample_stats_new Storage.sample_stats_old (by simp)
      (by decide)).1,
    (upsert_topstats_last_writer_wins [Storage.sample_stats_old]
      Storage.sample_stats_new Storage.sample_stats_old (by simp)
      (by decide)).2.1⟩

/-! ### Batch sync: scope of the per-player error isolation -/

/-- Counterexample to C9 as stated: with two tracked players whose fetches
both succeed, an exception raised while PROCESSING the first player's
scores (timestamp parsing or persisting, src/bot.py lines 371-383, outside
the try/except that guards only the fetch) aborts the whole batch: the
second player is never processed. -/
theorem fetch_last_24h_abort_counterexample :
    Bot.fetch_last_24h_for_all
      (fun _ : ℕ => (Except.ok [0] : Except Unit (List ℕ)))
      (fun _ : ℕ => (Except.error () : Except Unit (Option ℕ))) [1, 2] =
      ([(1, [])], some ()) ∧
    ∀ rows : List ℕ, ((2 : ℕ), rows) ∉
      (Bot.fetch_last_24h_for_all
        (fun _ : ℕ => (Except.ok [0] : Except Unit (List ℕ)))
        (fun _ : ℕ => (Except.error () : Except Unit (Option ℕ)))
        [1, 2]).1 := by
  have heq : Bot.fetch_last_24h_for_all
      (fun _ : ℕ => (Except.ok [0] : Except Unit (List ℕ)))
      (fun _ : ℕ => (Except.error () : Except Unit (Option ℕ))) [1, 2] =
      ([(1, [])], some ()) := rfl
  refine ⟨heq, ?_⟩
  intro rows hr
  rw [heq] at hr
  simp at hr

/-- Claim C9 amended: the isolation covers exactly the fetch step — a
player whose `recent_scores` call raises is skipped and every remaining
player is still processed (the caught branch), whereas an exception in the
per-score parse/persist loop propagates and aborts the batch, returning
only the players handled up to that point. -/
theorem fetch_last_24h_isolation_scope (π σ ρ ε : Type)
    (fetch : π → Except Unit (List σ)) (step : σ → Except ε (Option ρ))
    (p : π) (rest : List π) :
    (fetch p = .error () →
      Bot.fetch_last_24h_for_all fetch step (p :: rest) =
        Bot.fetch_last_24h_for_all fetch step rest) ∧
    ∀ scores e, fetch p = .ok scores →
      (Bot.process_scores step scores).2 = some e →
      Bot.fetch_last_24h_for_all fetch step (p :: rest) =
        ([(p, (Bot.process_scores step scores).1)], some e) := by
  constructor
  · intro hp
    simp [Bot.fetch_last_24h_for_all, hp]
  · intro scores e hp he
    simp [Bot.fetch_last_24h_for_all, hp, he]

/-- Witness for the amended C9: a failing fetch for the first player leaves
the batch over the remaining players intact. -/
theorem fetch_last_24h_isolation_scope_witness :
    Bot.fetch_last_24h_for_all
      (fun _ : ℕ => (Except.error () : Except Unit (List ℕ)))
      (fun _ : ℕ => (Except.ok none : Except Unit (Option ℕ))) [1, 2] =
      Bot.fetch_last_24h_for_all
        (fun _ : ℕ => (Except.error () : Except Unit (List ℕ)))
        (fun _ : ℕ => (Except.ok none : Except Unit (Option ℕ))) [2] :=
  (fetch_last_24h_isolation_scope ℕ ℕ ℕ Unit
    (fun _ => Except.error ()) (fun _ => Except.ok none) 1 [2]).1 rfl
